import Mathlib

/-!
Verification of the blue-railroad-import pipeline
(`tools/blue-railroad-import/blue_railroad_import/`).

This file gives a shallow embedding of the pipeline's data model and
operations — token parsing (`chain_data.py`), the token and owner-stats
models (`models.py`), leaderboard filtering/aggregation/sorting/rendering
(`leaderboard.py`), token-page rendering (`token_page.py`), the wiki save
boundary (`wiki_client.py`) and the orchestrating run (`importer.py`) —
and proves the specification's testable properties about it.

Modelling conventions:
* Python dicts are embedded as association lists with Python's insertion
  semantics: inserting an existing key updates the value in place
  (keeping its position), a fresh key is appended.  Iteration order is
  list order, matching Python's insertion-ordered dicts.
* Machine-level concerns are absent (Python ints are arbitrary
  precision), so integers are `Int`/`Nat`.
* Field values in a raw chain-data record may be a bare scalar or a
  sequence (the BigInt-serialization artifact); per the documented input
  contract only the numeric-looking fields (`songId`, `date`,
  `blockheight`) are subject to the wrapping, so these are embedded with
  a `FieldVal` wrapper while the address/string fields are plain strings.
* `datetime.fromtimestamp` is embedded as a UTC civil-date conversion
  that is defined exactly for timestamps whose calendar year is at most
  9999 (CPython raises `ValueError` beyond, which the source catches and
  converts to `None`).
* The remote page store is a title-to-content mapping; a write either
  succeeds or fails with a message supplied by an explicit failure
  oracle, modelling the `except` branch of `MWClientWrapper.save_page`.
  Edit summaries do not affect the store and are dropped where they are
  only passed through.
-/

namespace BlueRailroad

/-- Python apostrophe character as a string (wikitext quote markup). -/
def sq : String := String.singleton (Char.ofNat 39)

/-- Triple-apostrophe wikitext bold marker. -/
def b3 : String := sq ++ sq ++ sq

/-- Double-apostrophe wikitext italic marker. -/
def i2 : String := sq ++ sq

/-- A dynamically-typed scalar as it occurs in the chain-data JSON:
an integer or a string. -/
inductive Scalar where
  | int (n : Int)
  | str (s : String)
deriving DecidableEq

/-- Python truthiness for a scalar: nonzero integers and nonempty
strings are truthy. -/
def scalarTruthy : Scalar → Bool
  | .int n => n != 0
  | .str s => s != ""

/-- Python `str()` of a scalar. -/
def pyStrScalar : Scalar → String
  | .int n => toString n
  | .str s => s

/-- A raw field value: either a bare scalar or a sequence of scalars
(the BigInt-serialization artifact described by the input contract). -/
inductive FieldVal (α : Type) where
  | scalar (a : α)
  | arr (xs : List α)
deriving DecidableEq

/-- One raw chain-data record, as read from the dump.  `none` means the
key is absent from the record. -/
structure RawToken where
  owner : Option String := none
  ownerDisplay : Option String := none
  songId : Option (FieldVal Scalar) := none
  date : Option (FieldVal Int) := none
  uri : Option String := none
  blockheight : Option (FieldVal Int) := none
  videoHash : Option String := none
deriving DecidableEq

/-- Embedding of `extract_value` in `parse_token`: a list value is
unwrapped to its first element (`None` for an empty list), anything
else passes through. -/
def extractValue {α : Type} : Option (FieldVal α) → Option α
  | none => none
  | some (.scalar a) => some a
  | some (.arr xs) => xs.head?

/-- Embedding of the `Token` dataclass in `models.py`. -/
structure Token where
  token_id : String
  source_key : String
  owner : String
  owner_display : String
  song_id : Option String := none
  date : Option Int := none
  uri : Option String := none
  blockheight : Option Int := none
  video_hash : Option String := none
deriving DecidableEq

/-- Embedding of `parse_token` in `chain_data.py`. -/
def parse_token (token_id : String) (token_data : RawToken) (source_key : String) : Token :=
  { token_id := token_id
    source_key := source_key
    owner := token_data.owner.getD ""
    owner_display := token_data.ownerDisplay.getD (token_data.owner.getD "")
    song_id :=
      match extractValue token_data.songId with
      | some v => if scalarTruthy v then some (pyStrScalar v) else none
      | none => none
    date := extractValue token_data.date
    uri := token_data.uri
    blockheight := extractValue token_data.blockheight
    video_hash := token_data.videoHash }

/-- Lookup in a Python-dict association list: the value at the first
matching key. -/
def dictLookup {β : Type} (k : String) : List (String × β) → Option β
  | [] => none
  | (k', v) :: rest => if k' = k then some v else dictLookup k rest

/-- Insertion into a Python-dict association list: an existing key is
updated in place (keeping its position), a fresh key is appended. -/
def dictInsert {β : Type} (k : String) (v : β) : List (String × β) → List (String × β)
  | [] => [(k, v)]
  | (k', v') :: rest => if k' = k then (k, v) :: rest else (k', v') :: dictInsert k v rest

/-- Discriminant between the two token schemas: a token is
current-schema (V2) iff `blockheight` is present. -/
def Token.is_v2 (t : Token) : Bool := t.blockheight.isSome

/-- Zero-pad a numeral to two digits (`strftime` `%m`/`%d`). -/
def pad2 (n : Nat) : String := if n < 10 then "0" ++ toString n else toString n

/-- Civil date (year, month, day) of a day count since 1970-01-01
(proleptic Gregorian calendar, Hinnant's algorithm restricted to
non-negative day counts). -/
def civilFromDays (z0 : Nat) : Nat × Nat × Nat :=
  let z := z0 + 719468
  let era := z / 146097
  let doe := z % 146097
  let yoe := (doe - doe / 1460 + doe / 36524 - doe / 146097) / 365
  let y := yoe + era * 400
  let doy := doe - (365 * yoe + yoe / 4 - yoe / 100)
  let mp := (5 * doy + 2) / 153
  let d := doy - (153 * mp + 2) / 5 + 1
  let m := if mp < 10 then mp + 3 else mp - 9
  (if m ≤ 2 then y + 1 else y, m, d)

/-- Largest Unix timestamp whose UTC calendar year is at most 9999;
`datetime.fromtimestamp` raises `ValueError` beyond it. -/
def maxTimestamp : Nat := 253402300799

/-- Embedding of `datetime.fromtimestamp(..).strftime(%Y-%m-%d)` (UTC):
the civil date for in-range timestamps, `none` where CPython raises
(caught by the source and turned into `None`). -/
def fromtimestampDate (ts : Nat) : Option (Nat × Nat × Nat) :=
  if ts ≤ maxTimestamp then some (civilFromDays (ts / 86400)) else none

/-- Render a civil date as `YYYY-MM-DD` (`strftime` format). -/
def civilStr : Nat × Nat × Nat → String
  | (y, m, d) => toString y ++ "-" ++ pad2 m ++ "-" ++ pad2 d

/-- Numeric value of an all-digit character list (Python `int()` on a
string that passed the `isdigit` guard). -/
def digitsToNat (l : List Char) : Nat :=
  l.foldl (fun acc c => acc * 10 + (c.toNat - 48)) 0

/-- Embedding of the `Token.formatted_date` property in `models.py`. -/
def Token.formatted_date (t : Token) : Option String :=
  match t.date with
  | none => none
  | some d =>
    let date_str := toString d
    if date_str.length == 8 && date_str.front == '2' then
      some (date_str.take 4 ++ "-" ++ ((date_str.drop 4).take 2) ++ "-"
        ++ ((date_str.drop 6).take 2))
    else if date_str.length ≥ 10 && date_str.data.all Char.isDigit then
      match fromtimestampDate (digitsToNat date_str.data) with
      | some ymd => some (civilStr ymd)
      | none => none
    else none

/-- The all-zero 32-byte hash payload: 64 zero hex digits. -/
def zeros64 : String := String.mk (List.replicate 64 '0')

/-- Python `str.startswith`, on the character lists (the byte-position
based `String.startsWith` does not evaluate inside the kernel). -/
def pyStartsWith (s p : String) : Bool := p.data.isPrefixOf s.data

/-- Embedding of the `Token.ipfs_cid` property in `models.py`. -/
def Token.ipfs_cid (t : Token) : Option String :=
  if t.is_v2 then
    match t.video_hash with
    | some vh =>
      if vh != "" && vh != "0x" ++ zeros64 then
        some (if pyStartsWith vh "0x" then vh.drop 2 else vh)
      else none
    | none => none
  else
    match t.uri with
    | some u =>
      if u != "" && pyStartsWith u "ipfs://" then some (u.drop 7) else none
    | none => none

/-- Embedding of the `Source` dataclass in `models.py`. -/
structure Source where
  name : String
  chain_data_key : String
  network_id : String := "10"
  contract : String := ""
deriving DecidableEq

/-- Embedding of the `LeaderboardConfig` dataclass in `models.py`.  The
dataclass `__post_init__` (title defaulting to page) is a separate
constructor `LeaderboardConfig.make` below. -/
structure LeaderboardConfig where
  page : String
  title : String := ""
  description : String := ""
  filter_song_id : Option String := none
  filter_owner : Option String := none
  sort : String := "count"
deriving DecidableEq

/-- The `__post_init__` of `LeaderboardConfig`: a blank title defaults
to the page name. -/
def LeaderboardConfig.make (c : LeaderboardConfig) : LeaderboardConfig :=
  if c.title = "" then { c with title := c.page } else c

/-- Embedding of the `OwnerStats` dataclass in `models.py`. -/
structure OwnerStats where
  address : String
  display_name : String
  token_count : Nat := 0
  token_ids : List String := []
  newest_date : Int := 0
  oldest_date : Int := 0
deriving DecidableEq

/-- Embedding of `OwnerStats.add_token`: count and id list grow
unconditionally; the date extremes move only for a truthy date. -/
def OwnerStats.add_token (st : OwnerStats) (token_id : String) (date : Option Int) :
    OwnerStats :=
  let st1 := { st with
    token_count := st.token_count + 1
    token_ids := st.token_ids ++ [token_id] }
  match date with
  | some d =>
    if d != 0 then
      let st2 := if d > st1.newest_date then { st1 with newest_date := d } else st1
      if st2.oldest_date == 0 || d < st2.oldest_date then { st2 with oldest_date := d }
      else st2
    else st1
  | none => st1

/-- Embedding of the `BotConfig` dataclass in `models.py`. -/
structure BotConfig where
  sources : List Source := []
  leaderboards : List LeaderboardConfig := []

/-- A chain-data dump: a mapping from chain-data key to a mapping from
token id to raw record. -/
def ChainData : Type := List (String × List (String × RawToken))

/-- Embedding of `iter_tokens_from_source` in `chain_data.py`: a missing
chain-data key contributes the empty record set. -/
def iter_tokens_from_source (chain_data : ChainData) (source : Source) : List Token :=
  ((dictLookup source.chain_data_key chain_data).getD []).map
    (fun p => parse_token p.1 p.2 source.chain_data_key)

/-- The composite key under which a token is aggregated. -/
def compositeKey (source_key token_id : String) : String :=
  source_key ++ "_" ++ token_id

/-- Embedding of `aggregate_tokens_from_sources` in `chain_data.py`. -/
def aggregate_tokens_from_sources (chain_data : ChainData) (sources : List Source) :
    List (String × Token) :=
  sources.foldl
    (fun all source =>
      (iter_tokens_from_source chain_data source).foldl
        (fun all token => dictInsert (compositeKey token.source_key token.token_id) token all)
        all)
    []

/-- Python `str.lower`, character-wise (addresses and filters are ASCII). -/
def pyLower (s : String) : String := String.mk (s.data.map Char.toLower)

/-- Python truthiness of an optional string: `None` and the empty
string are falsy. -/
def optStrTruthy : Option String → Bool
  | none => false
  | some s => s != ""

/-- Embedding of `filter_tokens` in `leaderboard.py`. -/
def filter_tokens (tokens : List (String × Token))
    (filter_song_id filter_owner : Option String) : List (String × Token) :=
  tokens.filter (fun kt =>
    (if optStrTruthy filter_song_id then kt.2.song_id == filter_song_id else true) &&
    (if optStrTruthy filter_owner then
      pyLower kt.2.owner == pyLower (filter_owner.getD "") else true))

/-- The date value used for the leaderboard extremes:
`token.date if token.date else (token.blockheight or 0)`. -/
def dateValForStats (t : Token) : Int :=
  let bh : Int :=
    match t.blockheight with
    | some b => if b != 0 then b else 0
    | none => 0
  match t.date with
  | some d => if d != 0 then d else bh
  | none => bh

/-- One iteration of the `calculate_owner_stats` loop: a falsy owner is
skipped, otherwise the owner's bucket (created from this token when
absent) absorbs the token. -/
def owner_stats_step (stats : List (String × OwnerStats)) (token : Token) :
    List (String × OwnerStats) :=
  if token.owner = "" then stats
  else
    let st :=
      match dictLookup token.owner stats with
      | some s => s
      | none => { address := token.owner, display_name := token.owner_display }
    dictInsert token.owner
      (st.add_token token.token_id (some (dateValForStats token))) stats

/-- Embedding of `calculate_owner_stats` in `leaderboard.py`. -/
def calculate_owner_stats (tokens : List (String × Token)) :
    List (String × OwnerStats) :=
  tokens.foldl (fun stats kt => owner_stats_step stats kt.2) []

/-- Newest-date sort key of an owner address. -/
def statNewest (stats : List (String × OwnerStats)) (a : String) : Int :=
  ((dictLookup a stats).map (fun s => s.newest_date)).getD 0

/-- Oldest-date field of an owner address. -/
def statOldest (stats : List (String × OwnerStats)) (a : String) : Int :=
  ((dictLookup a stats).map (fun s => s.oldest_date)).getD 0

/-- Token-count sort key of an owner address. -/
def statCount (stats : List (String × OwnerStats)) (a : String) : Nat :=
  ((dictLookup a stats).map (fun s => s.token_count)).getD 0

/-- Comparison on `Option Int` where `none` plays `float(inf)`: every
value is below the sentinel, the sentinel only below itself. -/
def leInf : Option Int → Option Int → Bool
  | _, none => true
  | none, some _ => false
  | some x, some y => decide (x ≤ y)

/-- The `oldest` sort key: a zero `oldest_date` becomes the infinite
sentinel (`stats[a].oldest_date or float(inf)`). -/
def oldestKey (stats : List (String × OwnerStats)) (a : String) : Option Int :=
  let v := statOldest stats a
  if v = 0 then none else some v

/-- Embedding of `sort_owners` in `leaderboard.py`.  Python `sorted` is
a stable sort by the given key (with `reverse=True` reversing the
comparison, not the tie order); a stable sort for a total preorder is
unique, so the structurally recursive `List.insertionSort` with the
corresponding relation is the same function. -/
def sort_owners (stats : List (String × OwnerStats)) (sort_by : String) : List String :=
  let keys := stats.map Prod.fst
  if sort_by = "newest" then
    List.insertionSort (fun a b => statNewest stats b ≤ statNewest stats a) keys
  else if sort_by = "oldest" then
    List.insertionSort (fun a b => leInf (oldestKey stats a) (oldestKey stats b) = true) keys
  else
    List.insertionSort (fun a b => statCount stats b ≤ statCount stats a) keys

/-- Embedding of `EXERCISE_MAP` in `leaderboard.py`. -/
def exercise_map : List (String × String) :=
  [("5", "Squats ([[Blue Railroad Train]])"),
   ("6", "Pushups ([[Nine Pound Hammer]])"),
   ("7", "Squats ([[Blue Railroad Train]]) (legacy)"),
   ("10", "Army Crawls ([[Ginseng Sullivan]])")]

/-- Sort key for token ids inside a leaderboard row:
`int(x) if x.isdigit() else 0`. -/
def idSortKey (x : String) : Nat :=
  if x != "" && x.data.all Char.isDigit then digitsToNat x.data else 0

/-- One rendered leaderboard table row (two wikitext lines). -/
def leaderboard_row (owner_stats : List (String × OwnerStats)) (rank : Nat)
    (addr : String) : List String :=
  let stats := (dictLookup addr owner_stats).getD { address := addr, display_name := "" }
  let sorted_ids := List.insertionSort (fun a b => idSortKey a ≤ idSortKey b) stats.token_ids
  let token_links := sorted_ids.map
    (fun tid => "[[Blue Railroad Token " ++ tid ++ "|#" ++ tid ++ "]]")
  let token_links_str := String.intercalate ", " token_links
  ["|-",
   "| " ++ toString rank ++ " || " ++ stats.display_name ++ " || "
     ++ toString stats.token_count ++ " || " ++ token_links_str]

/-- The line list built by `generate_leaderboard_content` in
`leaderboard.py`, before joining with newlines. -/
def generate_leaderboard_lines (tokens : List (String × Token))
    (config : LeaderboardConfig) : List String :=
  let filtered := filter_tokens tokens config.filter_song_id config.filter_owner
  let owner_stats := calculate_owner_stats filtered
  let sorted_owners := sort_owners owner_stats config.sort
  let header := [b3 ++ config.title ++ b3 ++ " tracks ownership of [[Blue Railroad]] NFT tokens."]
  let descr := if config.description != "" then ["", config.description] else []
  let exercise :=
    if optStrTruthy config.filter_song_id then
      let fid := config.filter_song_id.getD ""
      ["", b3 ++ "Exercise:" ++ b3 ++ " "
        ++ ((dictLookup fid exercise_map).getD ("Exercise ID " ++ fid))]
    else []
  let stat_lines :=
    ["",
     i2 ++ "This page is automatically generated. See [[PickiPedia:BlueRailroadConfig|bot configuration]] to modify." ++ i2,
     "",
     "== Statistics ==",
     "* " ++ b3 ++ "Total Tokens:" ++ b3 ++ " " ++ toString filtered.length,
     "* " ++ b3 ++ "Total Holders:" ++ b3 ++ " " ++ toString owner_stats.length,
     "",
     "== Leaderboard ==",
     "\x7b| class=\"wikitable sortable\"",
     "! Rank !! Holder !! Tokens !! Token IDs"]
  let rows := (sorted_owners.enum.map
    (fun p => leaderboard_row owner_stats (p.1 + 1) p.2)).flatten
  let footer := ["|\x7d", "", "[[Category:Blue Railroad]]", "[[Category:Leaderboards]]"]
  header ++ descr ++ exercise ++ stat_lines ++ rows ++ footer

/-- Embedding of `generate_leaderboard_content` in `leaderboard.py`. -/
def generate_leaderboard_content (tokens : List (String × Token))
    (config : LeaderboardConfig) : String :=
  String.intercalate "\n" (generate_leaderboard_lines tokens config)

/-- Python `x or ''` on an optional integer, rendered into an f-string. -/
def orEmptyInt : Option Int → String
  | some n => if n != 0 then toString n else ""
  | none => ""

/-- Python `x or ''` on an optional string, rendered into an f-string. -/
def orEmptyStr : Option String → String
  | some s => s
  | none => ""

/-- Embedding of `generate_token_page_content` in `token_page.py`. -/
def generate_token_page_content (token : Token) : String :=
  let lines :=
    ["\x7b\x7bBlue Railroad Token",
     "|token_id=" ++ token.token_id,
     "|song_id=" ++ orEmptyStr token.song_id,
     "|contract_version=" ++ (if token.is_v2 then "V2" else "V1")]
  let version_lines :=
    if token.is_v2 then
      ["|blockheight=" ++ orEmptyInt token.blockheight,
       "|video_hash=" ++ orEmptyStr token.video_hash]
    else
      ["|date=" ++ orEmptyStr token.formatted_date,
       "|date_raw=" ++ orEmptyInt token.date]
  let uri_type :=
    match token.ipfs_cid with
    | some c => if c != "" then "ipfs" else "unknown"
    | none => "unknown"
  let tail_lines :=
    ["|owner=" ++ token.owner,
     "|owner_display=" ++ token.owner_display,
     "|uri=" ++ orEmptyStr token.uri,
     "|uri_type=" ++ uri_type,
     "|ipfs_cid=" ++ orEmptyStr token.ipfs_cid,
     "\x7d\x7d",
     "",
     "[[Category:Blue Railroad Tokens]]"]
  let v2_cat := if token.is_v2 then ["[[Category:Blue Railroad V2 Tokens]]"] else []
  String.intercalate "\n" (lines ++ version_lines ++ tail_lines ++ v2_cat)

/-- Embedding of the `SaveResult` dataclass in `wiki_client.py`. -/
structure SaveResult where
  page_title : String
  action : String
  message : String := ""
deriving DecidableEq

/-- The remote page store: a mapping from page title to content. -/
def Store : Type := List (String × String)

/-- Embedding of `MWClientWrapper.save_page` in `wiki_client.py`.  The
`write_err` oracle is the outcome of the `page.save` call: `none` for a
successful write, `some msg` for a transport failure raising an
exception whose description is `msg` (the `except` branch).  The edit
summary does not affect the store and is dropped. -/
def mw_save_page (store : Store) (write_err : Option String)
    (title content : String) : SaveResult × Store :=
  let current := dictLookup title store
  let existed := current.isSome
  if current == some content then
    ({ page_title := title, action := "unchanged", message := "Content identical" }, store)
  else
    match write_err with
    | some msg => ({ page_title := title, action := "error", message := msg }, store)
    | none =>
      ({ page_title := title, action := if existed then "updated" else "created" },
        dictInsert title content store)

/-- Embedding of the `DryRunClient` state in `wiki_client.py`. -/
structure DryRunClient where
  existing_pages : Store := []
  saved_pages : List (String × String × String) := []

/-- Embedding of `DryRunClient.save_page`: records the call and
classifies the outcome without ever touching `existing_pages`. -/
def DryRunClient.save_page (c : DryRunClient) (title content summary : String) :
    SaveResult × DryRunClient :=
  let c1 := { c with saved_pages := c.saved_pages ++ [(title, content, summary)] }
  let existed := (dictLookup title c.existing_pages).isSome
  let current := dictLookup title c.existing_pages
  if current == some content then
    ({ page_title := title, action := "unchanged",
       message := "Content identical (dry run)" }, c1)
  else
    let action := if existed then "updated" else "created"
    ({ page_title := title, action := action, message := action ++ " (dry run)" }, c1)

/-- Embedding of the `ImportStats` dataclass in `importer.py`. -/
structure ImportStats where
  tokens_created : Nat := 0
  tokens_updated : Nat := 0
  tokens_unchanged : Nat := 0
  tokens_error : Nat := 0
  leaderboards_created : Nat := 0
  leaderboards_updated : Nat := 0
  leaderboards_unchanged : Nat := 0
  leaderboards_error : Nat := 0
  errors : List String := []
deriving DecidableEq

/-- Embedding of `ImportStats.add_token_result`. -/
def ImportStats.add_token_result (stats : ImportStats) (result : SaveResult) : ImportStats :=
  if result.action = "created" then
    { stats with tokens_created := stats.tokens_created + 1 }
  else if result.action = "updated" then
    { stats with tokens_updated := stats.tokens_updated + 1 }
  else if result.action = "unchanged" then
    { stats with tokens_unchanged := stats.tokens_unchanged + 1 }
  else if result.action = "error" then
    { stats with
      tokens_error := stats.tokens_error + 1
      errors := stats.errors ++ ["Token " ++ result.page_title ++ ": " ++ result.message] }
  else stats

/-- Embedding of `ImportStats.add_leaderboard_result`. -/
def ImportStats.add_leaderboard_result (stats : ImportStats) (result : SaveResult) :
    ImportStats :=
  if result.action = "created" then
    { stats with leaderboards_created := stats.leaderboards_created + 1 }
  else if result.action = "updated" then
    { stats with leaderboards_updated := stats.leaderboards_updated + 1 }
  else if result.action = "unchanged" then
    { stats with leaderboards_unchanged := stats.leaderboards_unchanged + 1 }
  else if result.action = "error" then
    { stats with
      leaderboards_error := stats.leaderboards_error + 1
      errors := stats.errors ++ ["Leaderboard " ++ result.page_title ++ ": " ++ result.message] }
  else stats

/-- The wiki page title of a token page (`import_token`). -/
def token_page_title (t : Token) : String := "Blue Railroad Token " ++ t.token_id

/-- Embedding of `BlueRailroadImporter.import_token` against a reliable
store: generate the page content and save it.  The edit summary (which
reads `page_exists` but never writes) is dropped. -/
def import_token (store : Store) (t : Token) : SaveResult × Store :=
  mw_save_page store none (token_page_title t) (generate_token_page_content t)

/-- The token-page loop of `BlueRailroadImporter.run`. -/
def sync_token_pages (tokens : List (String × Token)) (acc : ImportStats × Store) :
    ImportStats × Store :=
  tokens.foldl
    (fun p kt =>
      let r := import_token p.2 kt.2
      (p.1.add_token_result r.1, r.2))
    acc

/-- The leaderboard loop of `BlueRailroadImporter.run`: every
leaderboard is generated from the same fully aggregated token mapping. -/
def sync_leaderboards (all_tokens : List (String × Token))
    (lbs : List LeaderboardConfig) (acc : ImportStats × Store) : ImportStats × Store :=
  lbs.foldl
    (fun p lb =>
      let content := generate_leaderboard_content all_tokens lb
      let r := mw_save_page p.2 none lb.page content
      (p.1.add_leaderboard_result r.1, r.2))
    acc

/-- Embedding of `BlueRailroadImporter.run` against a reliable store
(every write succeeds).  The configuration is a parameter: the claims
about consecutive runs hold the resolved configuration fixed, matching
`load_config` returning the same `BotConfig` both times. -/
def run (config : BotConfig) (chain_data : ChainData) (store : Store) :
    ImportStats × Store :=
  let all_tokens := aggregate_tokens_from_sources chain_data config.sources
  sync_leaderboards all_tokens config.leaderboards
    (sync_token_pages all_tokens ({}, store))

/-- The tokens of a mapping that belong to a given owner, in iteration
order. -/
def ownerTokens (o : String) (tokens : List (String × Token)) : List Token :=
  (tokens.map Prod.snd).filter (fun t => t.owner == o)

/-- The effect of one `calculate_owner_stats` iteration on a single
owner's bucket, as an `Option OwnerStats` transformer. -/
def statsStep (cur : Option OwnerStats) (t : Token) : OwnerStats :=
  (cur.getD { address := t.owner, display_name := t.owner_display }).add_token
    t.token_id (some (dateValForStats t))

/-- The sum of the per-owner token counts listed in a leaderboard's
table rows. -/
def sum_token_counts (stats : List (String × OwnerStats)) : Nat :=
  (stats.map (fun p => p.2.token_count)).sum

/-- The pages written by the token phase of a run: one page per
aggregated token, in iteration order. -/
def token_pages (tokens : List (String × Token)) : List (String × String) :=
  tokens.map (fun kt => (token_page_title kt.2, generate_token_page_content kt.2))

/-- The pages written by the leaderboard phase of a run, all generated
from the same aggregated mapping. -/
def leaderboard_pages (all_tokens : List (String × Token))
    (lbs : List LeaderboardConfig) : List (String × String) :=
  lbs.map (fun lb => (lb.page, generate_leaderboard_content all_tokens lb))

/-- The store evolution of a sequence of saves (stats ignored). -/
def writePages (pages : List (String × String)) (store : Store) : Store :=
  pages.foldl (fun st p => (mw_save_page st none p.1 p.2).2) store

/-- The flat (composite key, parsed token) list that
`aggregate_tokens_from_sources` inserts, in insertion order. -/
def aggregate_pages (chain_data : ChainData) (sources : List Source) :
    List (String × Token) :=
  sources.flatMap (fun s =>
    ((dictLookup s.chain_data_key chain_data).getD []).map
      (fun p => (compositeKey s.chain_data_key p.1, parse_token p.1 p.2 s.chain_data_key)))

/-- Folding dict insertion over a page list. -/
def insertAll (pages : List (String × Token)) (acc : List (String × Token)) :
    List (String × Token) :=
  pages.foldl (fun m p => dictInsert p.1 p.2 m) acc

/-!  Concrete inputs used by the witnesses and counterexamples. -/

/-- Witness token: first token of owner `0xA`. -/
def twA1 : Token :=
  { token_id := "1", source_key := "s", owner := "0xA", owner_display := "alice.eth" }

/-- Witness token: second token of owner `0xA`, carrying a different
display name. -/
def twA2 : Token :=
  { token_id := "2", source_key := "s", owner := "0xA", owner_display := "other.eth" }

/-- Witness token mapping for the owner-statistics claims. -/
def tokensW7 : List (String × Token) := [("s_1", twA1), ("s_2", twA2)]

/-- The `0xA` bucket computed from `tokensW7`. -/
def stW7 : OwnerStats :=
  (dictLookup "0xA" (calculate_owner_stats tokensW7)).getD
    { address := "", display_name := "" }

/-- Raw record of a token owned by `0xX`. -/
def rwX : RawToken := { owner := some "0xX" }

/-- Raw record of a token owned by `0xY`. -/
def rwY : RawToken := { owner := some "0xY" }

/-- Counterexample chain data for the idempotence claim: the same raw
token id under two sources with different owners. -/
def cdCounter : ChainData := [("a", [("1", rwX)]), ("b", [("1", rwY)])]

/-- Counterexample configuration for the idempotence claim: two sources
and no leaderboards. -/
def cfgCounter : BotConfig :=
  { sources := [{ name := "A", chain_data_key := "a" },
                { name := "B", chain_data_key := "b" }] }

/-- Counterexample chain data for the composite-key claim: the
composite keys of sources `a_1` and `a` collide across distinct raw
token ids. -/
def cdCollide : ChainData :=
  [("a_1", [("1", rwX)]), ("a", [("1_1", rwY), ("1", rwX)])]

/-- Sources for the composite-key counterexample; their chain-data keys
are distinct. -/
def srcCollide : List Source :=
  [{ name := "S1", chain_data_key := "a_1" }, { name := "S2", chain_data_key := "a" }]

/-- Witness chain data: the specification's end-to-end scenario. -/
def cdW : ChainData :=
  [("blueRailroads",
    [("1", { owner := some "0xAlice", ownerDisplay := some "alice.eth",
             songId := some (FieldVal.scalar (Scalar.str "5")),
             date := some (FieldVal.scalar 20260113),
             uri := some "ipfs://QmV1Token1" }),
     ("2", { owner := some "0xBob", ownerDisplay := some "bob.eth",
             songId := some (FieldVal.scalar (Scalar.str "5")),
             date := some (FieldVal.scalar 20260114),
             uri := some "ipfs://QmV1Token2" })]),
   ("blueRailroadV2s",
    [("5", { owner := some "0xAlice", ownerDisplay := some "alice.eth",
             songId := some (FieldVal.scalar (Scalar.str "5")),
             blockheight := some (FieldVal.scalar 12345678),
             videoHash := some "0xabc123" })])]

/-- Witness configuration: two sources and one leaderboard. -/
def cfgW : BotConfig :=
  { sources := [{ name := "V1", chain_data_key := "blueRailroads" },
                { name := "V2", chain_data_key := "blueRailroadV2s" }]
    leaderboards := [{ page := "Blue Railroad Leaderboard", title := "Overall" }] }

/-- Witness owner-statistics mapping for the sorting claim. -/
def statsW8 : List (String × OwnerStats) :=
  [("0xA", { address := "0xA", display_name := "a", token_count := 1,
             token_ids := ["1"], newest_date := 5, oldest_date := 5 }),
   ("0xB", { address := "0xB", display_name := "b", token_count := 3,
             token_ids := ["2", "3", "4"], newest_date := 9, oldest_date := 0 }),
   ("0xC", { address := "0xC", display_name := "c", token_count := 2,
             token_ids := ["5", "6"], newest_date := 7, oldest_date := 3 })]

/-- Witness token mapping with an ownerless token. -/
def tokensW10 : List (String × Token) :=
  [("s_1", twA1),
   ("s_9", { token_id := "9", source_key := "s", owner := "", owner_display := "" })]

/-- Witness token whose owner is spelled `0xAb`. -/
def twC1 : Token :=
  { token_id := "3", source_key := "s", owner := "0xAb", owner_display := "ab" }

/-- Witness token whose owner is spelled `0xAB`, differing from `twC1`
only in letter case. -/
def twC2 : Token :=
  { token_id := "4", source_key := "s", owner := "0xAB", owner_display := "AB" }

/-- Witness token mapping for the case-sensitivity claim. -/
def tokensW9 : List (String × Token) := [("k1", twC1), ("k2", twC2)]

/-!  Theorems about the embedded pipeline, one per specification claim. -/

theorem dictLookup_insert_self {β : Type} (k : String) (v : β) (l : List (String × β)) :
    dictLookup k (dictInsert k v l) = some v := by
  induction l with
  | nil => simp [dictInsert, dictLookup]
  | cons p rest ih =>
    obtain ⟨k', v'⟩ := p
    by_cases h : k' = k <;> simp [dictInsert, dictLookup, h, ih]

theorem dictLookup_insert_ne {β : Type} {k k' : String} (v : β) (l : List (String × β))
    (h : k' ≠ k) : dictLookup k (dictInsert k' v l) = dictLookup k l := by
  induction l with
  | nil => simp [dictInsert, dictLookup, h]
  | cons p rest ih =>
    obtain ⟨k'', v''⟩ := p
    by_cases h2 : k'' = k'
    · subst h2; simp [dictInsert, dictLookup, h]
    · simp only [dictInsert, if_neg h2]
      by_cases h3 : k'' = k
      · simp [dictLookup, h3]
      · simp [dictLookup, h3, ih]

/-- A key is present in a dict association list iff the lookup succeeds. -/
theorem dictLookup_eq_none_iff {β : Type} (k : String) (l : List (String × β)) :
    dictLookup k l = none ↔ k ∉ l.map Prod.fst := by
  induction l with
  | nil => simp [dictLookup]
  | cons p rest ih =>
    obtain ⟨k', v'⟩ := p
    by_cases h : k' = k
    · subst h; simp [dictLookup]
    · simp [dictLookup, h, ih, Ne.symm h]

/-- C2: for every page title, new content and store state, `save_page`
returns `unchanged` and performs no write when the current remote
content equals the new content under exact string equality; otherwise it
attempts the write and returns `created` when the page did not
previously exist and `updated` when it did; on a transport failure of
the write it returns `error` carrying the failure description as the
message and leaves the store untouched, never propagating the
exception.  The dry-run client classifies identically and never touches
its page store. -/
theorem c2_save_page_spec (store : Store) (write_err : Option String)
    (title content summary : String) (c : DryRunClient) :
    (dictLookup title store = some content →
      (mw_save_page store write_err title content).1.action = "unchanged"
      ∧ (mw_save_page store write_err title content).2 = store)
    ∧ (dictLookup title store ≠ some content → write_err = none →
      (mw_save_page store write_err title content).1.action
        = (if (dictLookup title store).isSome then "updated" else "created")
      ∧ (mw_save_page store write_err title content).2 = dictInsert title content store)
    ∧ (∀ msg, dictLookup title store ≠ some content → write_err = some msg →
      (mw_save_page store write_err title content).1.action = "error"
      ∧ (mw_save_page store write_err title content).1.message = msg
      ∧ (mw_save_page store write_err title content).2 = store)
    ∧ ((c.save_page title content summary).2.existing_pages = c.existing_pages)
    ∧ (dictLookup title c.existing_pages = some content →
      (c.save_page title content summary).1.action = "unchanged")
    ∧ (dictLookup title c.existing_pages ≠ some content →
      (c.save_page title content summary).1.action
        = (if (dictLookup title c.existing_pages).isSome then "updated" else "created")) := by
  refine ⟨?_, ?_, ?_, ?_, ?_, ?_⟩
  · intro h; simp [mw_save_page, h]
  · intro h he; subst he; simp [mw_save_page, h]
  · intro msg h he; subst he; simp [mw_save_page, h]
  · simp only [DryRunClient.save_page]
    split <;> rfl
  · intro h; simp [DryRunClient.save_page, h]
  · intro h; simp [DryRunClient.save_page, h]

/-- Witness for `c2_save_page_spec` at concrete inputs: all four
classification outcomes. -/
theorem c2_save_page_spec_witness :
    (mw_save_page [("T", "x")] none "T" "x").1.action = "unchanged"
    ∧ (mw_save_page [("T", "x")] none "T" "y").1.action = "updated"
    ∧ (mw_save_page [] none "T" "y").1.action = "created"
    ∧ (mw_save_page [("T", "x")] (some "boom") "T" "y").1.action = "error"
    ∧ (mw_save_page [("T", "x")] (some "boom") "T" "y").1.message = "boom"
    ∧ (({ existing_pages := [("T", "x")] } : DryRunClient).save_page "T" "x" "s").2.existing_pages
        = [("T", "x")] := by
  have h1 := (c2_save_page_spec [("T", "x")] none "T" "x" "s" {}).1 (by decide)
  have h2 := (c2_save_page_spec [("T", "x")] none "T" "y" "s" {}).2.1 (by decide) rfl
  have h3 := (c2_save_page_spec [] none "T" "y" "s" {}).2.1 (by decide) rfl
  have h4 := (c2_save_page_spec [("T", "x")] (some "boom") "T" "y" "s" {}).2.2.1
    "boom" (by decide) rfl
  have h5 := (c2_save_page_spec [] none "T" "x" "s"
    { existing_pages := [("T", "x")] }).2.2.2.1
  exact ⟨h1.1, h2.1.trans (by decide), h3.1.trans (by decide), h4.1, h4.2.1, h5⟩

/-- C4: `parse_token` unwraps a one-element sequence to its sole
element and an empty sequence to null, exactly for `songId`, `date` and
`blockheight`; `owner`, `uri` and `videoHash` pass through verbatim
(per the input contract only the numeric-looking fields carry the
sequence wrapping); `songId` is coerced to a string when the extracted
value is truthy, and a falsy or absent value (including a raw numeric
zero) is stored as null, while the string "0" is kept as "0". -/
theorem c4_parse_token_extraction (tid : String) (d : RawToken) (sk : String) :
    (parse_token tid d sk).date = extractValue d.date
    ∧ (parse_token tid d sk).blockheight = extractValue d.blockheight
    ∧ (∀ x, d.date = some (FieldVal.arr [x]) → (parse_token tid d sk).date = some x)
    ∧ (d.date = some (FieldVal.arr []) → (parse_token tid d sk).date = none)
    ∧ (∀ x, d.blockheight = some (FieldVal.arr [x]) →
        (parse_token tid d sk).blockheight = some x)
    ∧ (d.blockheight = some (FieldVal.arr []) → (parse_token tid d sk).blockheight = none)
    ∧ (∀ x, d.songId = some (FieldVal.arr [x]) → scalarTruthy x = true →
        (parse_token tid d sk).song_id = some (pyStrScalar x))
    ∧ (d.songId = some (FieldVal.arr []) → (parse_token tid d sk).song_id = none)
    ∧ (parse_token tid d sk).owner = d.owner.getD ""
    ∧ (parse_token tid d sk).uri = d.uri
    ∧ (parse_token tid d sk).video_hash = d.videoHash
    ∧ (d.songId = some (FieldVal.scalar (Scalar.str "0")) →
        (parse_token tid d sk).song_id = some "0")
    ∧ (∀ x, d.songId = some (FieldVal.scalar x) → scalarTruthy x = false →
        (parse_token tid d sk).song_id = none)
    ∧ (d.songId = none → (parse_token tid d sk).song_id = none) := by
  refine ⟨rfl, rfl, ?_, ?_, ?_, ?_, ?_, ?_, rfl, rfl, rfl, ?_, ?_, ?_⟩
  · intro x h; simp [parse_token, extractValue, h]
  · intro h; simp [parse_token, extractValue, h]
  · intro x h; simp [parse_token, extractValue, h]
  · intro h; simp [parse_token, extractValue, h]
  · intro x h ht; simp [parse_token, extractValue, h, ht]
  · intro h; simp [parse_token, extractValue, h]
  · intro h; simp [parse_token, extractValue, h, scalarTruthy, pyStrScalar]
  · intro x h ht; simp [parse_token, extractValue, h, ht]
  · intro h; simp [parse_token, extractValue, h]

/-- Witness for `c4_parse_token_extraction` at a concrete raw record
with wrapped fields, including both `songId` boundary cases. -/
theorem c4_parse_token_extraction_witness :
    (parse_token "1"
      { owner := some "0xA", songId := some (FieldVal.arr [Scalar.str "0"]),
        date := some (FieldVal.arr [20260113]),
        blockheight := some (FieldVal.arr []) } "src").date = some 20260113
    ∧ (parse_token "1"
      { owner := some "0xA", songId := some (FieldVal.arr [Scalar.str "0"]),
        date := some (FieldVal.arr [20260113]),
        blockheight := some (FieldVal.arr []) } "src").blockheight = none
    ∧ (parse_token "1"
      { owner := some "0xA", songId := some (FieldVal.arr [Scalar.str "0"]),
        date := some (FieldVal.arr [20260113]),
        blockheight := some (FieldVal.arr []) } "src").song_id = some "0"
    ∧ (parse_token "2" { songId := some (FieldVal.scalar (Scalar.int 0)) } "src").song_id
        = none := by
  obtain ⟨-, -, hd, -, -, hbh, hsong, -, -, -, -, -, -, -⟩ :=
    c4_parse_token_extraction "1"
      { owner := some "0xA", songId := some (FieldVal.arr [Scalar.str "0"]),
        date := some (FieldVal.arr [20260113]),
        blockheight := some (FieldVal.arr []) } "src"
  obtain ⟨-, -, -, -, -, -, -, -, -, -, -, -, hz, -⟩ :=
    c4_parse_token_extraction "2" { songId := some (FieldVal.scalar (Scalar.int 0)) } "src"
  exact ⟨hd 20260113 rfl, hbh rfl, hsong (Scalar.str "0") rfl rfl,
    hz (Scalar.int 0) rfl rfl⟩

/-- Counterexample to C6 as stated: a current-schema token whose
`videoHash` is the empty string — present (not absent) and different
from the all-zero hash — yields a null `ipfs_cid`, where the claim
prescribes the empty string with its (absent) `0x` prefix stripped. -/
theorem c6_counterexample :
    ({ token_id := "1", source_key := "s", owner := "", owner_display := "",
       blockheight := some 100, video_hash := some "" } : Token).video_hash = some ""
    ∧ ("" : String) ≠ "0x" ++ zeros64
    ∧ ({ token_id := "1", source_key := "s", owner := "", owner_display := "",
         blockheight := some 100, video_hash := some "" } : Token).ipfs_cid = none := by
  refine ⟨rfl, by decide, by decide⟩

/-- C6 (amended): for a current-schema token, `ipfs_cid` is the
`videoHash` with a leading `0x` prefix stripped, except null when the
hash is absent, empty, or the all-zero 32-byte value; for a legacy
token it is the suffix of `uri` after an `ipfs://` prefix when present,
and null otherwise. -/
theorem c6_ipfs_cid_spec (t : Token) :
    (t.is_v2 = true →
      (t.video_hash = none → t.ipfs_cid = none)
      ∧ (t.video_hash = some "" → t.ipfs_cid = none)
      ∧ (t.video_hash = some ("0x" ++ zeros64) → t.ipfs_cid = none)
      ∧ (∀ vh, t.video_hash = some vh → vh ≠ "" → vh ≠ "0x" ++ zeros64 →
          t.ipfs_cid = some (if pyStartsWith vh "0x" then vh.drop 2 else vh)))
    ∧ (t.is_v2 = false →
      (t.uri = none → t.ipfs_cid = none)
      ∧ (∀ u, t.uri = some u → pyStartsWith u "ipfs://" = true →
          t.ipfs_cid = some (u.drop 7))
      ∧ (∀ u, t.uri = some u → pyStartsWith u "ipfs://" = false → t.ipfs_cid = none)) := by
  constructor
  · intro hv2
    refine ⟨?_, ?_, ?_, ?_⟩
    · intro h; simp [Token.ipfs_cid, hv2, h]
    · intro h; simp [Token.ipfs_cid, hv2, h]
    · intro h; simp [Token.ipfs_cid, hv2, h]
    · intro vh h hne hnz; simp [Token.ipfs_cid, hv2, h, hne, hnz]
  · intro hv2
    refine ⟨?_, ?_, ?_⟩
    · intro h; simp [Token.ipfs_cid, hv2, h]
    · intro u h hpre
      have hne : u ≠ "" := by
        intro he; subst he
        simp [pyStartsWith, List.isPrefixOf] at hpre
      simp [Token.ipfs_cid, hv2, h, hne, hpre]
    · intro u h hpre; simp [Token.ipfs_cid, hv2, h, hpre]

/-- Witness for `c6_ipfs_cid_spec` at the specification's three example
inputs. -/
theorem c6_ipfs_cid_spec_witness :
    ({ token_id := "1", source_key := "s", owner := "", owner_display := "",
       blockheight := some 7, video_hash := some "0xabc123" } : Token).ipfs_cid
        = some "abc123"
    ∧ ({ token_id := "1", source_key := "s", owner := "", owner_display := "",
         blockheight := some 7, video_hash := some ("0x" ++ zeros64) } : Token).ipfs_cid
        = none
    ∧ ({ token_id := "1", source_key := "s", owner := "", owner_display := "",
         uri := some "ipfs://QmXyz123abc" } : Token).ipfs_cid = some "QmXyz123abc" := by
  have h1 := ((c6_ipfs_cid_spec
    { token_id := "1", source_key := "s", owner := "", owner_display := "",
      blockheight := some 7, video_hash := some "0xabc123" }).1 rfl).2.2.2
    "0xabc123" rfl (by decide) (by decide)
  have h2 := ((c6_ipfs_cid_spec
    { token_id := "1", source_key := "s", owner := "", owner_display := "",
      blockheight := some 7, video_hash := some ("0x" ++ zeros64) }).1 rfl).2.2.1 rfl
  have h3 := ((c6_ipfs_cid_spec
    { token_id := "1", source_key := "s", owner := "", owner_display := "",
      uri := some "ipfs://QmXyz123abc" }).2 rfl).2.1 "ipfs://QmXyz123abc" rfl (by decide)
  exact ⟨h1.trans (by decide), h2, h3.trans (by decide)⟩

/-- Counterexample to C5 as stated: `999999999999` has twelve decimal
digits, all numeric, yet `formatted_date` yields null — CPython's
`fromtimestamp` raises for calendar years beyond 9999 and the source
catches the error — where the claim prescribes the calendar date of
the timestamp. -/
theorem c5_counterexample :
    (toString (999999999999 : Int)).length = 12
    ∧ (toString (999999999999 : Int)).data.all Char.isDigit = true
    ∧ ({ token_id := "1", source_key := "s", owner := "", owner_display := "",
         date := some 999999999999 } : Token).formatted_date = none := by
  refine ⟨by decide, by decide, by decide⟩

/-- C5 (amended): `formatted_date` is the sliced `YYYY-MM-DD` string
when the decimal representation of `date` has exactly 8 characters and
begins with the digit 2; the civil date of the value read as a Unix
timestamp when the representation has 10 or more digits, all numeric,
and the timestamp's calendar year is at most 9999 (value at most
`maxTimestamp`); and null otherwise, including null `date` and
out-of-range timestamps. -/
theorem c5_formatted_date_spec (t : Token) :
    (t.date = none → t.formatted_date = none)
    ∧ (∀ d : Int, t.date = some d →
        ((toString d).length = 8 → (toString d).front = '2' →
          t.formatted_date = some ((toString d).take 4 ++ "-"
            ++ ((toString d).drop 4).take 2 ++ "-" ++ ((toString d).drop 6).take 2))
        ∧ (¬((toString d).length = 8 ∧ (toString d).front = '2') →
            (toString d).length ≥ 10 → (toString d).data.all Char.isDigit = true →
            (digitsToNat (toString d).data ≤ maxTimestamp →
              t.formatted_date
                = some (civilStr (civilFromDays (digitsToNat (toString d).data / 86400))))
            ∧ (digitsToNat (toString d).data > maxTimestamp → t.formatted_date = none))
        ∧ (¬((toString d).length = 8 ∧ (toString d).front = '2') →
            ¬((toString d).length ≥ 10 ∧ (toString d).data.all Char.isDigit = true) →
            t.formatted_date = none)) := by
  constructor
  · intro h; simp [Token.formatted_date, h]
  · intro d hd
    refine ⟨?_, ?_, ?_⟩
    · intro h8 h2
      simp [Token.formatted_date, hd, h8, h2]
    · intro hn8 h10 hdig
      have hb : ((toString d).length == 8 && (toString d).front == '2') = false := by
        rw [Bool.eq_false_iff]
        simpa [Bool.and_eq_true, beq_iff_eq] using hn8
      constructor
      · intro hle
        simp [Token.formatted_date, hd, hb, h10, hdig, fromtimestampDate, hle]
      · intro hgt
        simp [Token.formatted_date, hd, hb, h10, hdig, fromtimestampDate,
          Nat.not_le.mpr hgt]
    · intro hn8 hn10
      have hb : ((toString d).length == 8 && (toString d).front == '2') = false := by
        rw [Bool.eq_false_iff]
        simpa [Bool.and_eq_true, beq_iff_eq] using hn8
      have hb2 : (decide ((toString d).length ≥ 10)
          && (toString d).data.all Char.isDigit) = false := by
        rw [Bool.eq_false_iff]
        simpa [Bool.and_eq_true, decide_eq_true_eq] using hn10
      simp [Token.formatted_date, hd, hb, hb2]

/-- Witness for `c5_formatted_date_spec` at the specification's three
example inputs. -/
theorem c5_formatted_date_spec_witness :
    ({ token_id := "1", source_key := "s", owner := "", owner_display := "",
       date := some 20260113 } : Token).formatted_date = some "2026-01-13"
    ∧ ({ token_id := "1", source_key := "s", owner := "", owner_display := "",
         date := some 1705685808 } : Token).formatted_date = some "2024-01-19"
    ∧ ({ token_id := "1", source_key := "s", owner := "", owner_display := "",
         date := none } : Token).formatted_date = none := by
  have h1 := ((c5_formatted_date_spec
    { token_id := "1", source_key := "s", owner := "", owner_display := "",
      date := some 20260113 }).2 20260113 rfl).1 (by decide) (by decide)
  have h2 := (((c5_formatted_date_spec
    { token_id := "1", source_key := "s", owner := "", owner_display := "",
      date := some 1705685808 }).2 1705685808 rfl).2.1 (by decide) (by decide)
    (by decide)).1 (by decide)
  have h3 := (c5_formatted_date_spec
    { token_id := "1", source_key := "s", owner := "", owner_display := "",
      date := none }).1 rfl
  exact ⟨h1.trans (by decide), h2.trans (by decide), h3⟩

theorem add_token_fields (s : OwnerStats) (tid : String) (d : Option Int) :
    (s.add_token tid d).token_count = s.token_count + 1
    ∧ (s.add_token tid d).token_ids = s.token_ids ++ [tid]
    ∧ (s.add_token tid d).display_name = s.display_name
    ∧ (s.add_token tid d).address = s.address := by
  unfold OwnerStats.add_token
  cases d with
  | none => exact ⟨rfl, rfl, rfl, rfl⟩
  | some v =>
    dsimp only
    repeat' split <;> simp

theorem add_token_falsy (s : OwnerStats) (tid : String) (d : Option Int)
    (hd : d = some 0 ∨ d = none) :
    (s.add_token tid d).newest_date = s.newest_date
    ∧ (s.add_token tid d).oldest_date = s.oldest_date := by
  rcases hd with h | h <;> subst h <;> simp [OwnerStats.add_token]

theorem calc_foldl_lookup (tokens : List (String × Token)) (o : String) (ho : o ≠ "") :
    ∀ acc : List (String × OwnerStats),
    dictLookup o (tokens.foldl (fun stats kt => owner_stats_step stats kt.2) acc)
      = (ownerTokens o tokens).foldl (fun cur t => some (statsStep cur t)) (dictLookup o acc) := by
  induction tokens with
  | nil => intro acc; simp [ownerTokens]
  | cons kt rest ih =>
    intro acc
    obtain ⟨k, t⟩ := kt
    simp only [List.foldl_cons]
    by_cases he : t.owner = ""
    · have hne : (t.owner == o) = false := by
        rw [he]; exact beq_eq_false_iff_ne.mpr (Ne.symm ho)
      rw [show owner_stats_step acc t = acc from if_pos he]
      rw [ih acc]
      simp [ownerTokens, hne]
    · by_cases hto : t.owner = o
      · subst hto
        rw [show owner_stats_step acc t
            = dictInsert t.owner (statsStep (dictLookup t.owner acc) t) acc by
          rw [owner_stats_step, if_neg he]
          cases dictLookup t.owner acc <;> rfl]
        rw [ih]
        rw [dictLookup_insert_self]
        simp [ownerTokens]
      · rw [show owner_stats_step acc t
            = dictInsert t.owner
              (statsStep (dictLookup t.owner acc) t) acc by
          rw [owner_stats_step, if_neg he]
          cases dictLookup t.owner acc <;> rfl]
        rw [ih]
        rw [dictLookup_insert_ne _ _ hto]
        have hne : (t.owner == o) = false := beq_eq_false_iff_ne.mpr hto
        simp [ownerTokens, hne]

theorem calc_lookup_empty (tokens : List (String × Token)) :
    ∀ acc : List (String × OwnerStats),
    dictLookup "" (tokens.foldl (fun stats kt => owner_stats_step stats kt.2) acc)
      = dictLookup "" acc := by
  induction tokens with
  | nil => intro acc; rfl
  | cons kt rest ih =>
    intro acc
    simp only [List.foldl_cons]
    rw [ih]
    by_cases he : kt.2.owner = ""
    · rw [show owner_stats_step acc kt.2 = acc from if_pos he]
    · rw [owner_stats_step, if_neg he]
      exact dictLookup_insert_ne _ _ he

theorem calc_lookup_char (tokens : List (String × Token)) (o : String) (ho : o ≠ "") :
    dictLookup o (calculate_owner_stats tokens)
      = (ownerTokens o tokens).foldl (fun cur t => some (statsStep cur t)) none :=
  calc_foldl_lookup tokens o ho []

theorem foldOwner_some_spec (l : List Token) : ∀ s0 : OwnerStats,
    ∃ st, l.foldl (fun cur t => some (statsStep cur t)) (some s0) = some st
    ∧ st.token_count = s0.token_count + l.length
    ∧ st.token_ids = s0.token_ids ++ l.map (fun t => t.token_id)
    ∧ st.display_name = s0.display_name
    ∧ st.address = s0.address
    ∧ ((∀ t ∈ l, dateValForStats t = 0) →
        st.newest_date = s0.newest_date ∧ st.oldest_date = s0.oldest_date) := by
  induction l with
  | nil =>
    intro s0
    exact ⟨s0, rfl, by simp, by simp, rfl, rfl, fun _ => ⟨rfl, rfl⟩⟩
  | cons t rest ih =>
    intro s0
    obtain ⟨st, hfold, hc, hi, hd, ha, hz⟩ := ih (statsStep (some s0) t)
    have hstep : statsStep (some s0) t
        = s0.add_token t.token_id (some (dateValForStats t)) := rfl
    obtain ⟨hc1, hi1, hd1, ha1⟩ :=
      add_token_fields s0 t.token_id (some (dateValForStats t))
    refine ⟨st, hfold, ?_, ?_, ?_, ?_, ?_⟩
    · rw [hc, hstep, hc1]
      simp [Nat.add_assoc, Nat.add_comm 1 rest.length]
    · rw [hi, hstep, hi1]
      simp
    · rw [hd, hstep, hd1]
    · rw [ha, hstep, ha1]
    · intro hall
      have ht0 : dateValForStats t = 0 := hall t (by simp)
      have hrest : ∀ t ∈ rest, dateValForStats t = 0 :=
        fun t ht => hall t (by simp [ht])
      obtain ⟨hn, ho'⟩ := hz hrest
      have := add_token_falsy s0 t.token_id (some (dateValForStats t))
        (Or.inl (by rw [ht0]))
      exact ⟨by rw [hn, hstep, this.1], by rw [ho', hstep, this.2]⟩

theorem owner_bucket_isSome (tokens : List (String × Token)) (o : String) (ho : o ≠ "") :
    (dictLookup o (calculate_owner_stats tokens)).isSome = true
      ↔ ownerTokens o tokens ≠ [] := by
  rw [calc_lookup_char tokens o ho]
  cases h : ownerTokens o tokens with
  | nil => simp
  | cons t rest =>
    simp only [List.foldl_cons]
    obtain ⟨st, hfold, -⟩ := foldOwner_some_spec rest (statsStep none t)
    rw [hfold]
    simp

/-- C7: owner-statistics aggregation skips tokens with a falsy owner
(creating no bucket), takes each bucket's display name from the first
token seen for that owner and never updates it later, increments the
count and appends the token id unconditionally for every contributing
token, and moves the date extremes only for truthy date values, both
remaining 0 when no truthy value was seen. -/
theorem c7_owner_stats_spec (tokens : List (String × Token)) :
    dictLookup "" (calculate_owner_stats tokens) = none
    ∧ (∀ o, o ≠ "" →
        ((dictLookup o (calculate_owner_stats tokens)).isSome = true
          ↔ ownerTokens o tokens ≠ [])
        ∧ (∀ st, dictLookup o (calculate_owner_stats tokens) = some st →
            st.token_count = (ownerTokens o tokens).length
            ∧ st.token_ids = (ownerTokens o tokens).map (fun t => t.token_id)
            ∧ (∀ t0 rest, ownerTokens o tokens = t0 :: rest →
                st.display_name = t0.owner_display)
            ∧ ((∀ t ∈ ownerTokens o tokens, dateValForStats t = 0) →
                st.newest_date = 0 ∧ st.oldest_date = 0)))
    ∧ (∀ (s : OwnerStats) (tid : String) (dv : Option Int),
        (s.add_token tid dv).token_count = s.token_count + 1
        ∧ (s.add_token tid dv).token_ids = s.token_ids ++ [tid]
        ∧ ((dv = some 0 ∨ dv = none) →
            (s.add_token tid dv).newest_date = s.newest_date
            ∧ (s.add_token tid dv).oldest_date = s.oldest_date)) := by
  refine ⟨calc_lookup_empty tokens [], ?_, ?_⟩
  · intro o ho
    refine ⟨owner_bucket_isSome tokens o ho, ?_⟩
    intro st hst
    cases h : ownerTokens o tokens with
    | nil =>
      exfalso
      rw [calc_lookup_char tokens o ho, h] at hst
      simp at hst
    | cons t0 rest =>
      rw [calc_lookup_char tokens o ho, h] at hst
      simp only [List.foldl_cons] at hst
      obtain ⟨st', hfold, hc, hi, hd, ha, hz⟩ := foldOwner_some_spec rest (statsStep none t0)
      rw [hfold] at hst
      obtain rfl : st' = st := by injection hst
      have hstep : statsStep none t0
          = OwnerStats.add_token { address := t0.owner, display_name := t0.owner_display }
            t0.token_id (some (dateValForStats t0)) := rfl
      obtain ⟨hc1, hi1, hd1, ha1⟩ := add_token_fields
        { address := t0.owner, display_name := t0.owner_display }
        t0.token_id (some (dateValForStats t0))
      refine ⟨?_, ?_, ?_, ?_⟩
      · rw [hc, hstep, hc1]
        simp [Nat.add_comm]
      · rw [hi, hstep, hi1]
        simp
      · intro t0' rest' h'
        obtain ⟨rfl, -⟩ : t0 = t0' ∧ rest = rest' := by
          refine ⟨?_, ?_⟩ <;> injection h'
        rw [hd, hstep, hd1]
      · intro hall
        have ht0 : dateValForStats t0 = 0 := hall t0 (by simp)
        have hrest : ∀ t ∈ rest, dateValForStats t = 0 :=
          fun t ht => hall t (by simp [ht])
        obtain ⟨hn, ho'⟩ := hz hrest
        have hfz := add_token_falsy
          { address := t0.owner, display_name := t0.owner_display }
          t0.token_id (some (dateValForStats t0)) (Or.inl (by rw [ht0]))
        exact ⟨by rw [hn, hstep, hfz.1], by rw [ho', hstep, hfz.2]⟩
  · intro s tid dv
    obtain ⟨hc, hi, -, -⟩ := add_token_fields s tid dv
    exact ⟨hc, hi, add_token_falsy s tid dv⟩

/-- Witness for `c7_owner_stats_spec` on a concrete mapping: the later
token with a different display name for the same owner does not change
the bucket's display name, the count and id list cover both tokens, and
an all-falsy-date owner keeps both extremes at 0. -/
theorem c7_owner_stats_spec_witness :
    stW7.display_name = "alice.eth"
    ∧ stW7.token_count = 2
    ∧ stW7.token_ids = ["1", "2"]
    ∧ stW7.newest_date = 0
    ∧ stW7.oldest_date = 0 := by
  obtain ⟨hc, hi, hd, hz⟩ :=
    ((c7_owner_stats_spec tokensW7).2.1 "0xA" (by decide)).2 stW7 (by decide)
  obtain ⟨hn, ho⟩ := hz (by decide)
  exact ⟨(hd twA1 [twA2] (by decide)).trans (by decide),
    hc.trans (by decide), hi.trans (by decide), hn, ho⟩

theorem sort_owners_perm (stats : List (String × OwnerStats)) (sort_by : String) :
    List.Perm (sort_owners stats sort_by) (stats.map Prod.fst) := by
  unfold sort_owners
  split
  · exact List.perm_insertionSort _ _
  · split
    · exact List.perm_insertionSort _ _
    · exact List.perm_insertionSort _ _

theorem oldestKey_eq_none_iff (stats : List (String × OwnerStats)) (a : String) :
    oldestKey stats a = none ↔ statOldest stats a = 0 := by
  by_cases h : statOldest stats a = 0 <;> simp [oldestKey, h]

theorem leInf_total (x y : Option Int) : leInf x y = true ∨ leInf y x = true := by
  cases x <;> cases y <;> simp [leInf] <;> exact Int.le_total _ _

theorem leInf_trans {x y z : Option Int} (h1 : leInf x y = true) (h2 : leInf y z = true) :
    leInf x z = true := by
  cases x <;> cases y <;> cases z <;> simp_all [leInf] <;> omega

/-- C8: `sort_owners` orders addresses by descending token count for
mode `count` (the default for any unrecognized mode), by descending
`newest_date` for mode `newest`, and by ascending `oldest_date` for
mode `oldest` with zero replaced by a sentinel above every real date,
so owners with no date sort last; the result is always a permutation of
the bucket keys. -/
theorem c8_sort_owners_spec (stats : List (String × OwnerStats)) (sort_by : String) :
    List.Perm (sort_owners stats sort_by) (stats.map Prod.fst)
    ∧ (sort_by = "newest" →
        List.Sorted (fun a b => statNewest stats b ≤ statNewest stats a)
          (sort_owners stats sort_by))
    ∧ (sort_by = "oldest" →
        List.Sorted (fun a b => leInf (oldestKey stats a) (oldestKey stats b) = true)
          (sort_owners stats sort_by)
        ∧ List.Pairwise (fun a b => statOldest stats a = 0 → statOldest stats b = 0)
          (sort_owners stats sort_by))
    ∧ (sort_by ≠ "newest" → sort_by ≠ "oldest" →
        List.Sorted (fun a b => statCount stats b ≤ statCount stats a)
          (sort_owners stats sort_by)) := by
  refine ⟨sort_owners_perm stats sort_by, ?_, ?_, ?_⟩
  · intro h
    subst h
    haveI : IsTotal String (fun a b => statNewest stats b ≤ statNewest stats a) :=
      ⟨fun a b => Int.le_total _ _⟩
    haveI : IsTrans String (fun a b => statNewest stats b ≤ statNewest stats a) :=
      ⟨fun _ _ _ h1 h2 => le_trans h2 h1⟩
    simpa [sort_owners] using
      List.sorted_insertionSort (fun a b => statNewest stats b ≤ statNewest stats a)
        (stats.map Prod.fst)
  · intro h
    subst h
    haveI : IsTotal String (fun a b => leInf (oldestKey stats a) (oldestKey stats b) = true) :=
      ⟨fun a b => leInf_total _ _⟩
    haveI : IsTrans String (fun a b => leInf (oldestKey stats a) (oldestKey stats b) = true) :=
      ⟨fun _ _ _ h1 h2 => leInf_trans h1 h2⟩
    have hs := List.sorted_insertionSort
      (fun a b => leInf (oldestKey stats a) (oldestKey stats b) = true)
      (stats.map Prod.fst)
    constructor
    · simpa [sort_owners] using hs
    · have hp : List.Pairwise
          (fun a b => leInf (oldestKey stats a) (oldestKey stats b) = true)
          (sort_owners stats "oldest") := by simpa [sort_owners] using hs
      refine hp.imp ?_
      intro a b hab hz
      have ha : oldestKey stats a = none := (oldestKey_eq_none_iff stats a).mpr hz
      rw [ha] at hab
      have hb : oldestKey stats b = none := by
        cases hbk : oldestKey stats b with
        | none => rfl
        | some v => rw [hbk] at hab; simp [leInf] at hab
      exact (oldestKey_eq_none_iff stats b).mp hb
  · intro h1 h2
    haveI : IsTotal String (fun a b => statCount stats b ≤ statCount stats a) :=
      ⟨fun a b => Nat.le_total _ _⟩
    haveI : IsTrans String (fun a b => statCount stats b ≤ statCount stats a) :=
      ⟨fun _ _ _ ha hb => le_trans hb ha⟩
    simpa [sort_owners, h1, h2] using
      List.sorted_insertionSort (fun a b => statCount stats b ≤ statCount stats a)
        (stats.map Prod.fst)

/-- Witness for `c8_sort_owners_spec` on a concrete three-owner
mapping, exercising all three modes and the unrecognized-mode default;
the zero-`oldest_date` owner sorts last in `oldest` mode. -/
theorem c8_sort_owners_spec_witness :
    sort_owners statsW8 "newest" = ["0xB", "0xC", "0xA"]
    ∧ sort_owners statsW8 "oldest" = ["0xC", "0xA", "0xB"]
    ∧ sort_owners statsW8 "banana" = ["0xB", "0xC", "0xA"]
    ∧ List.Sorted (fun a b => statNewest statsW8 b ≤ statNewest statsW8 a)
        (sort_owners statsW8 "newest")
    ∧ List.Sorted (fun a b => statCount statsW8 b ≤ statCount statsW8 a)
        (sort_owners statsW8 "banana") := by
  refine ⟨by decide, by decide, by decide,
    (c8_sort_owners_spec statsW8 "newest").2.1 rfl,
    (c8_sort_owners_spec statsW8 "banana").2.2.2 (by decide) (by decide)⟩

theorem pyLower_eq_empty_iff (s : String) : pyLower s = "" ↔ s = "" := by
  cases s with
  | mk data =>
    cases data with
    | nil => simp [pyLower]
    | cons c cs =>
      constructor
      · intro h
        exact absurd (congrArg String.data h) (by simp [pyLower])
      · intro h
        exact absurd (congrArg String.data h) (by simp)

/-- C9: token filtering by owner is case-insensitive (exact match up to
case), while owner-statistics bucketing is keyed by the raw
case-sensitive owner string: two tokens whose owners differ only in
letter case both pass the same owner filter yet land in two distinct
buckets. -/
theorem c9_case_insensitivity_spec (tokens : List (String × Token)) (f : String)
    (hf : f ≠ "") :
    (∀ k t, ((k, t) ∈ filter_tokens tokens none (some f)
        ↔ ((k, t) ∈ tokens ∧ pyLower t.owner = pyLower f)))
    ∧ (∀ k1 t1 k2 t2, (k1, t1) ∈ tokens → (k2, t2) ∈ tokens →
        pyLower t1.owner = pyLower f → pyLower t2.owner = pyLower f →
        t1.owner ≠ t2.owner →
        (k1, t1) ∈ filter_tokens tokens none (some f)
        ∧ (k2, t2) ∈ filter_tokens tokens none (some f)
        ∧ (dictLookup t1.owner
            (calculate_owner_stats (filter_tokens tokens none (some f)))).isSome = true
        ∧ (dictLookup t2.owner
            (calculate_owner_stats (filter_tokens tokens none (some f)))).isSome = true) := by
  have hmem : ∀ k (t : Token), ((k, t) ∈ filter_tokens tokens none (some f)
      ↔ ((k, t) ∈ tokens ∧ pyLower t.owner = pyLower f)) := by
    intro k t
    simp [filter_tokens, List.mem_filter, optStrTruthy, hf]
  refine ⟨hmem, ?_⟩
  intro k1 t1 k2 t2 h1 h2 hl1 hl2 hne
  have hin1 : (k1, t1) ∈ filter_tokens tokens none (some f) := (hmem k1 t1).mpr ⟨h1, hl1⟩
  have hin2 : (k2, t2) ∈ filter_tokens tokens none (some f) := (hmem k2 t2).mpr ⟨h2, hl2⟩
  have hfl : pyLower f ≠ "" := fun h => hf ((pyLower_eq_empty_iff f).mp h)
  have ho1 : t1.owner ≠ "" := by
    intro h
    exact hfl (hl1.symm.trans ((pyLower_eq_empty_iff t1.owner).mpr h))
  have ho2 : t2.owner ≠ "" := by
    intro h
    exact hfl (hl2.symm.trans ((pyLower_eq_empty_iff t2.owner).mpr h))
  have hm1 : t1 ∈ ownerTokens t1.owner (filter_tokens tokens none (some f)) :=
    List.mem_filter.mpr ⟨List.mem_map.mpr ⟨(k1, t1), hin1, rfl⟩, by simp⟩
  have hm2 : t2 ∈ ownerTokens t2.owner (filter_tokens tokens none (some f)) :=
    List.mem_filter.mpr ⟨List.mem_map.mpr ⟨(k2, t2), hin2, rfl⟩, by simp⟩
  exact ⟨hin1, hin2, (owner_bucket_isSome _ _ ho1).mpr (List.ne_nil_of_mem hm1),
    (owner_bucket_isSome _ _ ho2).mpr (List.ne_nil_of_mem hm2)⟩

/-- Witness for `c9_case_insensitivity_spec`: owners `0xAb` and `0xAB`
both pass the filter `0xab` and produce two distinct buckets. -/
theorem c9_case_insensitivity_spec_witness :
    ("k1", twC1) ∈ filter_tokens tokensW9 none (some "0xab")
    ∧ ("k2", twC2) ∈ filter_tokens tokensW9 none (some "0xab")
    ∧ (dictLookup "0xAb"
        (calculate_owner_stats (filter_tokens tokensW9 none (some "0xab")))).isSome = true
    ∧ (dictLookup "0xAB"
        (calculate_owner_stats (filter_tokens tokensW9 none (some "0xab")))).isSome = true
    ∧ twC1.owner ≠ twC2.owner := by
  obtain ⟨hin1, hin2, hs1, hs2⟩ :=
    (c9_case_insensitivity_spec tokensW9 "0xab" (by decide)).2 "k1" twC1 "k2" twC2
      (by simp [tokensW9]) (by simp [tokensW9]) (by decide) (by decide) (by decide)
  exact ⟨hin1, hin2, hs1, hs2, by decide⟩

theorem filter_tokens_no_filters (tokens : List (String × Token)) :
    filter_tokens tokens none none = tokens := by
  simp [filter_tokens, optStrTruthy]

theorem sum_counts_insert_none (k : String) (v : OwnerStats) :
    ∀ stats : List (String × OwnerStats), dictLookup k stats = none →
    sum_token_counts (dictInsert k v stats) = sum_token_counts stats + v.token_count := by
  intro stats
  induction stats with
  | nil => intro h; simp [sum_token_counts, dictInsert]
  | cons p rest ih =>
    intro h
    obtain ⟨k', v'⟩ := p
    by_cases hk : k' = k
    · rw [dictLookup, if_pos hk] at h
      exact absurd h (by simp)
    · rw [dictLookup, if_neg hk] at h
      rw [dictInsert, if_neg hk]
      simp only [sum_token_counts, List.map_cons, List.sum_cons] at ih ⊢
      rw [ih h]
      omega

theorem sum_counts_insert_some (k : String) (v s : OwnerStats) :
    ∀ stats : List (String × OwnerStats), dictLookup k stats = some s →
    sum_token_counts (dictInsert k v stats) + s.token_count
      = sum_token_counts stats + v.token_count := by
  intro stats
  induction stats with
  | nil => intro h; exact absurd h (by simp [dictLookup])
  | cons p rest ih =>
    intro h
    obtain ⟨k', v'⟩ := p
    by_cases hk : k' = k
    · rw [dictLookup, if_pos hk] at h
      obtain rfl : v' = s := by injection h
      rw [dictInsert, if_pos hk]
      simp only [sum_token_counts, List.map_cons, List.sum_cons]
      omega
    · rw [dictLookup, if_neg hk] at h
      rw [dictInsert, if_neg hk]
      simp only [sum_token_counts, List.map_cons, List.sum_cons] at ih ⊢
      have := ih h
      omega

theorem sum_counts_step (acc : List (String × OwnerStats)) (t : Token)
    (ho : t.owner ≠ "") :
    sum_token_counts (owner_stats_step acc t) = sum_token_counts acc + 1 := by
  rw [owner_stats_step, if_neg ho]
  cases hl : dictLookup t.owner acc with
  | none =>
    dsimp only
    rw [sum_counts_insert_none _ _ _ hl,
      (add_token_fields { address := t.owner, display_name := t.owner_display }
        t.token_id (some (dateValForStats t))).1]
  | some s =>
    dsimp only
    have hins := sum_counts_insert_some t.owner
      (s.add_token t.token_id (some (dateValForStats t))) s acc hl
    have hcnt := (add_token_fields s t.token_id (some (dateValForStats t))).1
    omega

theorem calc_sum_aux (tokens : List (String × Token)) :
    ∀ acc, sum_token_counts (tokens.foldl (fun stats kt => owner_stats_step stats kt.2) acc)
      = sum_token_counts acc + (tokens.filter (fun kt => kt.2.owner != "")).length := by
  induction tokens with
  | nil => intro acc; simp
  | cons kt rest ih =>
    intro acc
    simp only [List.foldl_cons]
    by_cases he : kt.2.owner = ""
    · rw [show owner_stats_step acc kt.2 = acc from if_pos he, ih]
      simp [he]
    · rw [ih, sum_counts_step acc kt.2 he]
      have hb : (kt.2.owner != "") = true := by simp [he]
      simp [List.filter_cons, hb]
      omega

theorem calc_sum (tokens : List (String × Token)) :
    sum_token_counts (calculate_owner_stats tokens)
      = (tokens.filter (fun kt => kt.2.owner != "")).length := by
  rw [calculate_owner_stats, calc_sum_aux tokens []]
  simp [sum_token_counts]

theorem filter_length_split (l : List (String × Token)) :
    (l.filter (fun kt => kt.2.owner != "")).length
      + (l.filter (fun kt => kt.2.owner == "")).length = l.length := by
  induction l with
  | nil => rfl
  | cons a rest ih =>
    by_cases h : a.2.owner = "" <;> simp [List.filter_cons, h] <;> omega

/-- C10: with no filters, ownerless tokens (empty owner string) count
into the Total Tokens line, while the Total Holders line and the table
rows exclude them, so Total Tokens strictly exceeds the sum of the
per-owner token counts listed in the table. -/
theorem c10_ownerless_tokens_spec (tokens : List (String × Token))
    (config : LeaderboardConfig)
    (h1 : config.filter_song_id = none) (h2 : config.filter_owner = none)
    (k0 : String) (t0 : Token) (h0 : (k0, t0) ∈ tokens) (h0o : t0.owner = "") :
    filter_tokens tokens config.filter_song_id config.filter_owner = tokens
    ∧ ("* " ++ b3 ++ "Total Tokens:" ++ b3 ++ " " ++ toString tokens.length)
        ∈ generate_leaderboard_lines tokens config
    ∧ ("* " ++ b3 ++ "Total Holders:" ++ b3 ++ " "
        ++ toString (calculate_owner_stats tokens).length)
        ∈ generate_leaderboard_lines tokens config
    ∧ dictLookup "" (calculate_owner_stats tokens) = none
    ∧ "" ∉ sort_owners (calculate_owner_stats tokens) config.sort
    ∧ sum_token_counts (calculate_owner_stats tokens)
        + (tokens.filter (fun kt => kt.2.owner == "")).length = tokens.length
    ∧ sum_token_counts (calculate_owner_stats tokens) < tokens.length := by
  have hfid : filter_tokens tokens config.filter_song_id config.filter_owner = tokens := by
    rw [h1, h2]
    exact filter_tokens_no_filters tokens
  have hsum : sum_token_counts (calculate_owner_stats tokens)
      + (tokens.filter (fun kt => kt.2.owner == "")).length = tokens.length := by
    rw [calc_sum]
    exact filter_length_split tokens
  have hpos : 0 < (tokens.filter (fun kt => kt.2.owner == "")).length := by
    refine List.length_pos.mpr (List.ne_nil_of_mem (List.mem_filter.mpr ⟨h0, ?_⟩))
    simp [h0o]
  have hlk : dictLookup "" (calculate_owner_stats tokens) = none :=
    calc_lookup_empty tokens []
  refine ⟨hfid, ?_, ?_, hlk, ?_, hsum, by omega⟩
  · simp only [generate_leaderboard_lines, hfid, List.mem_append, List.mem_cons]
    tauto
  · simp only [generate_leaderboard_lines, hfid, List.mem_append, List.mem_cons]
    tauto
  · intro hmem
    have hperm := sort_owners_perm (calculate_owner_stats tokens) config.sort
    exact (dictLookup_eq_none_iff "" _).mp hlk (hperm.mem_iff.mp hmem)

/-- Witness for `c10_ownerless_tokens_spec` on a mapping of one owned
and one ownerless token under a filterless leaderboard configuration. -/
theorem c10_ownerless_tokens_spec_witness :
    sum_token_counts (calculate_owner_stats tokensW10) < tokensW10.length
    ∧ sum_token_counts (calculate_owner_stats tokensW10) = 1
    ∧ tokensW10.length = 2
    ∧ ("* " ++ b3 ++ "Total Tokens:" ++ b3 ++ " " ++ toString tokensW10.length)
        ∈ generate_leaderboard_lines tokensW10 { page := "L" }
    ∧ "" ∉ sort_owners (calculate_owner_stats tokensW10) "count" := by
  obtain ⟨-, hmem1, -, -, hns, -, hlt⟩ :=
    c10_ownerless_tokens_spec tokensW10 { page := "L" } rfl rfl "s_9"
      { token_id := "9", source_key := "s", owner := "", owner_display := "" }
      (by simp [tokensW10]) rfl
  exact ⟨hlt, by decide, by decide, hmem1, hns⟩

theorem compositeKey_ne {a b : String} (t : String) (h : a ≠ b) :
    compositeKey a t ≠ compositeKey b t := by
  intro he
  apply h
  unfold compositeKey at he
  have hd := congrArg String.data he
  simp only [String.data_append] at hd
  have h2 := List.append_cancel_right (List.append_cancel_right hd)
  cases a; cases b
  exact congrArg String.mk h2

theorem aggregate_eq_insertAll (chain_data : ChainData) (sources : List Source) :
    aggregate_tokens_from_sources chain_data sources
      = insertAll (aggregate_pages chain_data sources) [] := by
  suffices h : ∀ (srcs : List Source) (acc : List (String × Token)),
      srcs.foldl (fun all source =>
        (iter_tokens_from_source chain_data source).foldl
          (fun all token =>
            dictInsert (compositeKey token.source_key token.token_id) token all) all) acc
        = insertAll (aggregate_pages chain_data srcs) acc from h sources []
  intro srcs
  induction srcs with
  | nil => intro acc; rfl
  | cons s rest ih =>
    intro acc
    have hsrc : ∀ acc2 : List (String × Token),
        (iter_tokens_from_source chain_data s).foldl
          (fun all token =>
            dictInsert (compositeKey token.source_key token.token_id) token all) acc2
        = insertAll (((dictLookup s.chain_data_key chain_data).getD []).map
            (fun p => (compositeKey s.chain_data_key p.1,
              parse_token p.1 p.2 s.chain_data_key))) acc2 := by
      intro acc2
      rw [iter_tokens_from_source, insertAll, List.foldl_map, List.foldl_map]
      rfl
    simp only [List.foldl_cons, aggregate_pages, List.flatMap_cons]
    rw [show insertAll ((((dictLookup s.chain_data_key chain_data).getD []).map
        (fun p => (compositeKey s.chain_data_key p.1,
          parse_token p.1 p.2 s.chain_data_key)))
        ++ rest.flatMap (fun s =>
          ((dictLookup s.chain_data_key chain_data).getD []).map
            (fun p => (compositeKey s.chain_data_key p.1,
              parse_token p.1 p.2 s.chain_data_key)))) acc
      = insertAll (rest.flatMap (fun s =>
          ((dictLookup s.chain_data_key chain_data).getD []).map
            (fun p => (compositeKey s.chain_data_key p.1,
              parse_token p.1 p.2 s.chain_data_key))))
          (insertAll (((dictLookup s.chain_data_key chain_data).getD []).map
            (fun p => (compositeKey s.chain_data_key p.1,
              parse_token p.1 p.2 s.chain_data_key))) acc) from by
      rw [insertAll, insertAll, insertAll, List.foldl_append]]
    rw [hsrc acc]
    exact ih _

theorem insertAll_lookup_notmem (k : String) :
    ∀ (pages : List (String × Token)) (acc : List (String × Token)),
    k ∉ pages.map Prod.fst →
    dictLookup k (insertAll pages acc) = dictLookup k acc := by
  intro pages
  induction pages with
  | nil => intro acc _; rfl
  | cons p rest ih =>
    intro acc h
    simp only [List.map_cons, List.mem_cons, not_or] at h
    rw [show insertAll (p :: rest) acc = insertAll rest (dictInsert p.1 p.2 acc) from rfl]
    rw [ih _ h.2, dictLookup_insert_ne _ _ (Ne.symm h.1)]

theorem insertAll_lookup_nodup :
    ∀ (pages : List (String × Token)) (acc : List (String × Token)) (k : String) (v : Token),
    (pages.map Prod.fst).Nodup → (k, v) ∈ pages →
    dictLookup k (insertAll pages acc) = some v := by
  intro pages
  induction pages with
  | nil => intro acc k v _ h; cases h
  | cons p rest ih =>
    intro acc k v hnd hmem
    simp only [List.map_cons, List.nodup_cons] at hnd
    rw [show insertAll (p :: rest) acc = insertAll rest (dictInsert p.1 p.2 acc) from rfl]
    rcases List.mem_cons.mp hmem with heq | hmm
    · obtain rfl : p = (k, v) := heq.symm
      rw [insertAll_lookup_notmem k rest _ hnd.1, dictLookup_insert_self]
    · exact ih _ k v hnd.2 hmm

/-- Counterexample to C3 as stated: the chain-data keys `a_1` and `a`
are distinct, yet `compositeKey "a_1" "1" = compositeKey "a" "1_1"`,
so the token with id `1` from source `a_1` is overwritten by the token
with id `1_1` from source `a` and is no longer retrievable under its
composite key. -/
theorem c3_counterexample :
    compositeKey "a_1" "1" = compositeKey "a" "1_1"
    ∧ ("1" : String) ∈ ((dictLookup "a_1" cdCollide).getD []).map Prod.fst
    ∧ ("1" : String) ∈ ((dictLookup "a" cdCollide).getD []).map Prod.fst
    ∧ dictLookup (compositeKey "a_1" "1") (aggregate_tokens_from_sources cdCollide srcCollide)
        ≠ some (parse_token "1" rwX "a_1") := by
  refine ⟨by decide, by decide, by decide, by decide⟩

/-- C3 (amended): when the chain-data keys of the sources are distinct
and, additionally, the composite keys of all parsed tokens are pairwise
distinct (as is the case when chain-data keys contain no underscore),
every token is retrievable under `sourceKey ++ "_" ++ tokenId`; two
tokens with the same raw token id from different sources always have
distinct composite keys; and a source whose chain-data key is missing
from the dump contributes no tokens rather than an error. -/
theorem c3_aggregate_spec (chain_data : ChainData) (sources : List Source)
    (hdk : (sources.map (fun s => s.chain_data_key)).Nodup)
    (hinj : ((aggregate_pages chain_data sources).map Prod.fst).Nodup) :
    (∀ a b t : String, a ≠ b → compositeKey a t ≠ compositeKey b t)
    ∧ (∀ s ∈ sources,
        ∀ p ∈ (dictLookup s.chain_data_key chain_data).getD ([] : List (String × RawToken)),
        dictLookup (compositeKey s.chain_data_key p.1)
            (aggregate_tokens_from_sources chain_data sources)
          = some (parse_token p.1 p.2 s.chain_data_key))
    ∧ (∀ s : Source, dictLookup s.chain_data_key chain_data = none →
        iter_tokens_from_source chain_data s = []
        ∧ ∀ rest : List Source, aggregate_tokens_from_sources chain_data (s :: rest)
            = aggregate_tokens_from_sources chain_data rest) := by
  refine ⟨fun a b t h => compositeKey_ne t h, ?_, ?_⟩
  · intro s hs p hp
    rw [aggregate_eq_insertAll]
    refine insertAll_lookup_nodup _ [] _ _ hinj ?_
    refine List.mem_flatMap.mpr ⟨s, hs, ?_⟩
    exact List.mem_map.mpr ⟨p, hp, rfl⟩
  · intro s hmiss
    have hiter : iter_tokens_from_source chain_data s = [] := by
      simp [iter_tokens_from_source, hmiss]
    refine ⟨hiter, ?_⟩
    intro rest
    rw [aggregate_tokens_from_sources, aggregate_tokens_from_sources,
      List.foldl_cons, hiter]
    rfl

/-- Witness for `c3_aggregate_spec`: two sources with underscore-free
keys sharing the raw token id `1`; both tokens are retrievable under
their distinct composite keys, and a source absent from the dump yields
no tokens. -/
theorem c3_aggregate_spec_witness :
    dictLookup (compositeKey "a" "1") (aggregate_tokens_from_sources cdCounter
        [{ name := "A", chain_data_key := "a" }, { name := "B", chain_data_key := "b" }])
      = some (parse_token "1" rwX "a")
    ∧ dictLookup (compositeKey "b" "1") (aggregate_tokens_from_sources cdCounter
        [{ name := "A", chain_data_key := "a" }, { name := "B", chain_data_key := "b" }])
      = some (parse_token "1" rwY "b")
    ∧ compositeKey "a" "1" ≠ compositeKey "b" "1"
    ∧ iter_tokens_from_source cdCounter { name := "C", chain_data_key := "missing" } = [] := by
  obtain ⟨hne, hret, hmiss⟩ := c3_aggregate_spec cdCounter
    [{ name := "A", chain_data_key := "a" }, { name := "B", chain_data_key := "b" }]
    (by decide) (by decide)
  refine ⟨?_, ?_, hne "a" "b" "1" (by decide), ?_⟩
  · exact hret { name := "A", chain_data_key := "a" } (by simp) ("1", rwX) (by decide)
  · exact hret { name := "B", chain_data_key := "b" } (by simp) ("1", rwY) (by decide)
  · exact (hmiss { name := "C", chain_data_key := "missing" } (by decide)).1

theorem mw_save_lookup_ne (store : Store) (e : Option String) {t t' : String} (c : String)
    (h : t' ≠ t) :
    dictLookup t ((mw_save_page store e t' c).2) = dictLookup t store := by
  unfold mw_save_page
  dsimp only
  split
  · rfl
  · cases e
    · exact dictLookup_insert_ne _ _ h
    · rfl

theorem mw_save_lookup_self (store : Store) (t c : String) :
    dictLookup t ((mw_save_page store none t c).2) = some c := by
  unfold mw_save_page
  dsimp only
  split
  · next hcc => simpa using hcc
  · exact dictLookup_insert_self _ _ _

theorem writePages_lookup_notmem (t : String) :
    ∀ (pages : List (String × String)) (store : Store), t ∉ pages.map Prod.fst →
    dictLookup t (writePages pages store) = dictLookup t store := by
  intro pages
  induction pages with
  | nil => intro store _; rfl
  | cons p rest ih =>
    intro store h
    simp only [List.map_cons, List.mem_cons, not_or] at h
    rw [show writePages (p :: rest) store
        = writePages rest ((mw_save_page store none p.1 p.2).2) from rfl]
    rw [ih _ h.2, mw_save_lookup_ne _ _ _ (Ne.symm h.1)]

theorem writePages_lookup_nodup :
    ∀ (pages : List (String × String)) (store : Store) (t c : String),
    (pages.map Prod.fst).Nodup → (t, c) ∈ pages →
    dictLookup t (writePages pages store) = some c := by
  intro pages
  induction pages with
  | nil => intro store t c _ h; cases h
  | cons p rest ih =>
    intro store t c hnd hmem
    simp only [List.map_cons, List.nodup_cons] at hnd
    rw [show writePages (p :: rest) store
        = writePages rest ((mw_save_page store none p.1 p.2).2) from rfl]
    rcases List.mem_cons.mp hmem with heq | hmm
    · obtain rfl : p = (t, c) := heq.symm
      rw [writePages_lookup_notmem t rest _ hnd.1, mw_save_lookup_self]
    · exact ih _ t c hnd.2 hmm

theorem sync_token_pages_store (tokens : List (String × Token)) :
    ∀ acc : ImportStats × Store,
    (sync_token_pages tokens acc).2 = writePages (token_pages tokens) acc.2 := by
  induction tokens with
  | nil => intro acc; rfl
  | cons kt rest ih =>
    intro acc
    rw [show sync_token_pages (kt :: rest) acc = sync_token_pages rest
        (acc.1.add_token_result (import_token acc.2 kt.2).1,
         (import_token acc.2 kt.2).2) from rfl]
    rw [ih]
    rfl

theorem sync_leaderboards_store (all_tokens : List (String × Token))
    (lbs : List LeaderboardConfig) :
    ∀ acc : ImportStats × Store,
    (sync_leaderboards all_tokens lbs acc).2
      = writePages (leaderboard_pages all_tokens lbs) acc.2 := by
  induction lbs with
  | nil => intro acc; rfl
  | cons lb rest ih =>
    intro acc
    rw [show sync_leaderboards all_tokens (lb :: rest) acc
        = sync_leaderboards all_tokens rest
          (acc.1.add_leaderboard_result
            (mw_save_page acc.2 none lb.page (generate_leaderboard_content all_tokens lb)).1,
           (mw_save_page acc.2 none lb.page (generate_leaderboard_content all_tokens lb)).2)
        from rfl]
    rw [ih]
    rfl

theorem sync_token_pages_all_unchanged (tokens : List (String × Token)) :
    ∀ (s : ImportStats) (store : Store),
    (∀ kt ∈ tokens, dictLookup (token_page_title kt.2) store
      = some (generate_token_page_content kt.2)) →
    sync_token_pages tokens (s, store)
      = ({ s with tokens_unchanged := s.tokens_unchanged + tokens.length }, store) := by
  induction tokens with
  | nil =>
    intro s store _
    simp [sync_token_pages]
  | cons kt rest ih =>
    intro s store hall
    have hlook := hall kt (List.mem_cons_self _ _)
    have hr : import_token store kt.2
        = ({ page_title := token_page_title kt.2, action := "unchanged",
             message := "Content identical" }, store) := by
      rw [import_token]
      unfold mw_save_page
      simp [hlook]
    have hstep : sync_token_pages (kt :: rest) (s, store)
        = sync_token_pages rest
            ({ s with tokens_unchanged := s.tokens_unchanged + 1 }, store) := by
      rw [show sync_token_pages (kt :: rest) (s, store)
          = sync_token_pages rest
            (s.add_token_result (import_token store kt.2).1,
             (import_token store kt.2).2) from rfl]
      rw [hr]
      rfl
    rw [hstep, ih _ _ (fun kt2 hm => hall kt2 (List.mem_cons_of_mem _ hm))]
    dsimp only
    rw [show s.tokens_unchanged + 1 + rest.length
        = s.tokens_unchanged + (kt :: rest).length from by simp; omega]

theorem sync_leaderboards_all_unchanged (all_tokens : List (String × Token))
    (lbs : List LeaderboardConfig) :
    ∀ (s : ImportStats) (store : Store),
    (∀ lb ∈ lbs, dictLookup lb.page store
      = some (generate_leaderboard_content all_tokens lb)) →
    sync_leaderboards all_tokens lbs (s, store)
      = ({ s with leaderboards_unchanged := s.leaderboards_unchanged + lbs.length },
         store) := by
  induction lbs with
  | nil =>
    intro s store _
    simp [sync_leaderboards]
  | cons lb rest ih =>
    intro s store hall
    have hlook := hall lb (List.mem_cons_self _ _)
    have hr : mw_save_page store none lb.page (generate_leaderboard_content all_tokens lb)
        = ({ page_title := lb.page, action := "unchanged",
             message := "Content identical" }, store) := by
      unfold mw_save_page
      simp [hlook]
    have hstep : sync_leaderboards all_tokens (lb :: rest) (s, store)
        = sync_leaderboards all_tokens rest
            ({ s with leaderboards_unchanged := s.leaderboards_unchanged + 1 }, store) := by
      rw [show sync_leaderboards all_tokens (lb :: rest) (s, store)
          = sync_leaderboards all_tokens rest
            (s.add_leaderboard_result
              (mw_save_page store none lb.page
                (generate_leaderboard_content all_tokens lb)).1,
             (mw_save_page store none lb.page
               (generate_leaderboard_content all_tokens lb)).2) from rfl]
      rw [hr]
      rfl
    rw [hstep, ih _ _ (fun lb2 hm => hall lb2 (List.mem_cons_of_mem _ hm))]
    dsimp only
    rw [show s.leaderboards_unchanged + 1 + rest.length
        = s.leaderboards_unchanged + (lb :: rest).length from by simp; omega]

set_option maxRecDepth 100000 in
/-- Counterexample to C1 as stated: two sources carrying the same raw
token id `1` with different owners map to the same page title
`Blue Railroad Token 1` (the title does not include the source key), so
the page content ping-pongs and the second run still reports updated
pages. -/
theorem c1_counterexample :
    (run cfgCounter cdCounter (run cfgCounter cdCounter []).2).1.tokens_updated ≠ 0 := by
  decide

/-- C1 (amended): whenever the aggregated tokens produce pairwise
distinct page titles (distinct token ids), the leaderboard pages are
pairwise distinct, and no leaderboard page coincides with a token page
title, a second run over the same chain data and configuration against
the store left by the first run reports zero created, updated and
error pages and classifies every token page and leaderboard page
unchanged, leaving the store untouched. -/
theorem c1_idempotent_run (config : BotConfig) (chain_data : ChainData) (store : Store)
    (htok : ((aggregate_tokens_from_sources chain_data config.sources).map
        (fun kt => token_page_title kt.2)).Nodup)
    (hlb : (config.leaderboards.map (fun lb => lb.page)).Nodup)
    (hdisj : ∀ lb ∈ config.leaderboards,
        ∀ kt ∈ aggregate_tokens_from_sources chain_data config.sources,
        lb.page ≠ token_page_title kt.2) :
    (run config chain_data (run config chain_data store).2).1.tokens_created = 0
    ∧ (run config chain_data (run config chain_data store).2).1.tokens_updated = 0
    ∧ (run config chain_data (run config chain_data store).2).1.tokens_error = 0
    ∧ (run config chain_data (run config chain_data store).2).1.tokens_unchanged
        = (aggregate_tokens_from_sources chain_data config.sources).length
    ∧ (run config chain_data (run config chain_data store).2).1.leaderboards_created = 0
    ∧ (run config chain_data (run config chain_data store).2).1.leaderboards_updated = 0
    ∧ (run config chain_data (run config chain_data store).2).1.leaderboards_error = 0
    ∧ (run config chain_data (run config chain_data store).2).1.leaderboards_unchanged
        = config.leaderboards.length
    ∧ (run config chain_data (run config chain_data store).2).1.errors = []
    ∧ (run config chain_data (run config chain_data store).2).2
        = (run config chain_data store).2 := by
  have hrun1 : (run config chain_data store).2
      = writePages
          (leaderboard_pages (aggregate_tokens_from_sources chain_data config.sources)
            config.leaderboards)
          (writePages (token_pages (aggregate_tokens_from_sources chain_data config.sources))
            store) := by
    rw [show run config chain_data store
        = sync_leaderboards (aggregate_tokens_from_sources chain_data config.sources)
            config.leaderboards
            (sync_token_pages (aggregate_tokens_from_sources chain_data config.sources)
              ({}, store)) from rfl]
    rw [sync_leaderboards_store, sync_token_pages_store]
  have hfst_tok : (token_pages
        (aggregate_tokens_from_sources chain_data config.sources)).map Prod.fst
      = (aggregate_tokens_from_sources chain_data config.sources).map
          (fun kt => token_page_title kt.2) := by
    simp [token_pages, List.map_map, Function.comp]
  have hfst_lb : (leaderboard_pages (aggregate_tokens_from_sources chain_data config.sources)
        config.leaderboards).map Prod.fst
      = config.leaderboards.map (fun lb => lb.page) := by
    simp [leaderboard_pages, List.map_map, Function.comp]
  have hlook_tok : ∀ kt ∈ aggregate_tokens_from_sources chain_data config.sources,
      dictLookup (token_page_title kt.2) (run config chain_data store).2
        = some (generate_token_page_content kt.2) := by
    intro kt hkt
    rw [hrun1]
    have hnot : token_page_title kt.2
        ∉ (leaderboard_pages (aggregate_tokens_from_sources chain_data config.sources)
            config.leaderboards).map Prod.fst := by
      rw [hfst_lb]
      intro hmem
      obtain ⟨lb, hlbm, heq⟩ := List.mem_map.mp hmem
      exact hdisj lb hlbm kt hkt heq
    rw [writePages_lookup_notmem _ _ _ hnot]
    refine writePages_lookup_nodup _ _ _ _ ?_ ?_
    · rw [hfst_tok]; exact htok
    · exact List.mem_map.mpr ⟨kt, hkt, rfl⟩
  have hlook_lb : ∀ lb ∈ config.leaderboards,
      dictLookup lb.page (run config chain_data store).2
        = some (generate_leaderboard_content
            (aggregate_tokens_from_sources chain_data config.sources) lb) := by
    intro lb hlbm
    rw [hrun1]
    refine writePages_lookup_nodup _ _ _ _ ?_ ?_
    · rw [hfst_lb]; exact hlb
    · exact List.mem_map.mpr ⟨lb, hlbm, rfl⟩
  have h2tok := sync_token_pages_all_unchanged
    (aggregate_tokens_from_sources chain_data config.sources) {}
    ((run config chain_data store).2) hlook_tok
  have h2lb := sync_leaderboards_all_unchanged
    (aggregate_tokens_from_sources chain_data config.sources) config.leaderboards
    { ({} : ImportStats) with
      tokens_unchanged := ({} : ImportStats).tokens_unchanged
        + (aggregate_tokens_from_sources chain_data config.sources).length }
    ((run config chain_data store).2) hlook_lb
  have hrun2 : run config chain_data ((run config chain_data store).2)
      = ({ ({ ({} : ImportStats) with
            tokens_unchanged := ({} : ImportStats).tokens_unchanged
              + (aggregate_tokens_from_sources chain_data config.sources).length }) with
          leaderboards_unchanged := ({ ({} : ImportStats) with
            tokens_unchanged := ({} : ImportStats).tokens_unchanged
              + (aggregate_tokens_from_sources chain_data config.sources).length
              } : ImportStats).leaderboards_unchanged
            + config.leaderboards.length },
         (run config chain_data store).2) := by
    rw [show run config chain_data ((run config chain_data store).2)
        = sync_leaderboards (aggregate_tokens_from_sources chain_data config.sources)
            config.leaderboards
            (sync_token_pages (aggregate_tokens_from_sources chain_data config.sources)
              ({}, (run config chain_data store).2)) from rfl]
    rw [h2tok, h2lb]
  rw [hrun2]
  refine ⟨rfl, rfl, rfl, by simp, rfl, rfl, rfl, by simp, rfl, rfl⟩

set_option maxRecDepth 400000 in
/-- Witness for `c1_idempotent_run` at the specification's end-to-end
scenario (three tokens across two sources and one leaderboard): the
second run classifies all three token pages and the leaderboard page
unchanged with no creations, updates or errors. -/
theorem c1_idempotent_run_witness :
    (run cfgW cdW (run cfgW cdW []).2).1.tokens_created = 0
    ∧ (run cfgW cdW (run cfgW cdW []).2).1.tokens_updated = 0
    ∧ (run cfgW cdW (run cfgW cdW []).2).1.tokens_unchanged = 3
    ∧ (run cfgW cdW (run cfgW cdW []).2).1.leaderboards_unchanged = 1
    ∧ (run cfgW cdW (run cfgW cdW []).2).1.errors = [] := by
  obtain ⟨h1, h2, -, h4, -, -, -, h8, h9, -⟩ :=
    c1_idempotent_run cfgW cdW [] (by decide) (by decide) (by decide)
  exact ⟨h1, h2, h4.trans (by decide), h8.trans (by decide), h9⟩

end BlueRailroad
